import Mathlib

/-!
Verification of the ai-invest signal-fusion / paper-trading system.

The definitions below are a shallow embedding, over exact rational
arithmetic (`ℚ`), of the Python sources under `src/`:

* `src/strategy/adaptive_thresholds.py`  — `get_adaptive_thresholds`
* `src/strategy/signal_combiner.py`      — `combine_signals`
* `src/strategy/paper_trader.py`         — `PaperTrader.process_signal`,
  `PaperTrader.update_positions` (with the DB row defaults from
  `src/db/models.py::open_paper_position`)
* `src/analysis/accuracy_tracker.py`     — the correctness rule of
  `evaluate_signal`, the update loop of `run_accuracy_check`,
  and `compute_adaptive_weights`
* `src/strategy/walk_forward.py`         — `WalkForwardValidator.run`
* `src/strategy/risk_manager.py`         — `check_position_limits`

Embedding conventions:
* Python `float` values are modelled as exact rationals.
* `np.clip(x, lo, hi)` is `clip x lo hi = min (max x lo) hi`.
* Python's `round(x, 4)` (round-half-to-even on the 4th decimal) is
  `round4`, built on `roundHalfEven`.
* Python's truthiness idiom `a or b` on numbers-or-None is `pyOr`.
* Fallible code (Python exceptions) is modelled with `Except`.
-/

namespace AIInvest

/-- `np.clip(x, lo, hi)`. -/
def clip (x lo hi : ℚ) : ℚ := min (max x lo) hi

/-- Python `x or d` where `x : float | None`: `None` and `0.0` are falsy. -/
def pyOr (x : Option ℚ) (d : ℚ) : ℚ :=
  match x with
  | none => d
  | some v => if v = 0 then d else v

/-- Round-half-to-even to the nearest integer (Python's `round` mode). -/
def roundHalfEven (x : ℚ) : ℤ :=
  let f := ⌊x⌋
  let r := x - f
  if r < 1/2 then f
  else if 1/2 < r then f + 1
  else if 2 ∣ f then f else f + 1

/-- Python `round(x, 4)`. -/
def round4 (x : ℚ) : ℚ := (roundHalfEven (x * 10000) : ℚ) / 10000

/-- `np.sign` restricted to rational inputs. -/
def sign (x : ℚ) : ℤ := if 0 < x then 1 else if x < 0 then -1 else 0

lemma roundHalfEven_intCast (n : ℤ) : roundHalfEven (n : ℚ) = n := by
  unfold roundHalfEven
  simp

lemma round4_of_den_dvd {x : ℚ} (k : ℤ) (h : x = (k : ℚ) / 10000) :
    round4 x = x := by
  subst h
  unfold round4
  have h1 : (k : ℚ) / 10000 * 10000 = (k : ℚ) := by ring
  rw [h1, roundHalfEven_intCast]

/-! ### `src/config.py` constants -/

def BUY_THRESHOLD : ℚ := 0.3

def BUY_CONFIDENCE_MIN : ℚ := 0.65

def SELL_THRESHOLD : ℚ := -0.2

def SELL_CONFIDENCE_MIN : ℚ := 0.50

/-- `STOP_LOSS["atr_multiplier"]`. -/
def STOP_LOSS_atr_multiplier : ℚ := 2.0

/-- `STOP_LOSS["percentage"]`. -/
def STOP_LOSS_percentage : ℚ := 0.05

/-- `STOP_LOSS["trailing"]`. -/
def STOP_LOSS_trailing : ℚ := 0.07

/-- `RISK["max_single_position"]`. -/
def RISK_max_single_position : ℚ := 0.15

/-- `RISK["max_crypto_allocation"]`. -/
def RISK_max_crypto_allocation : ℚ := 0.30

/-- `RISK["max_trade_risk"]`. -/
def RISK_max_trade_risk : ℚ := 0.01

/-! ### `src/strategy/adaptive_thresholds.py` -/

structure Thresholds where
  buy_threshold : ℚ
  buy_conf_min : ℚ
  sell_threshold : ℚ
  sell_conf_min : ℚ
deriving DecidableEq

/-- The VIX block of `get_adaptive_thresholds`: the pair of additive
adjustments `(Δ buy_thresh, Δ buy_conf)`. -/
def vixAdj (vix_level : Option ℚ) : ℚ × ℚ :=
  match vix_level with
  | none => (0, 0)
  | some v =>
    if 0 < v then
      if 40 < v then (0.15, 0.10)
      else if 30 < v then (0.10, 0.07)
      else if 20 < v then (0.05, 0.03)
      else if v < 12 then (-0.05, -0.03)
      else (0, 0)
    else (0, 0)

/-- The macro-regime block of `get_adaptive_thresholds`. -/
def macroRegimeAdj (macro_regime : Option String) : ℚ × ℚ :=
  if macro_regime = some "RISK_OFF" then (0.08, 0.05)
  else if macro_regime = some "CAUTIOUS" then (0.04, 0.02)
  else if macro_regime = some "RISK_ON" then (-0.03, 0)
  else if macro_regime = some "CONSTRUCTIVE" then (-0.01, 0)
  else (0, 0)

/-- The breadth-regime block of `get_adaptive_thresholds`. -/
def breadthRegimeAdj (breadth_regime : Option String) : ℚ × ℚ :=
  if breadth_regime = some "POOR" then (0.06, 0.04)
  else if breadth_regime = some "WEAK" then (0.03, 0.02)
  else if breadth_regime = some "HEALTHY" then (-0.02, 0)
  else (0, 0)

/-- `get_adaptive_thresholds(vix_level, macro_regime, breadth_regime)`. -/
def get_adaptive_thresholds (vix_level : Option ℚ)
    (macro_regime breadth_regime : Option String) : Thresholds :=
  let va := vixAdj vix_level
  let ma := macroRegimeAdj macro_regime
  let ba := breadthRegimeAdj breadth_regime
  let buy_thresh := clip (BUY_THRESHOLD + va.1 + ma.1 + ba.1) 0.15 0.55
  let buy_conf := clip (BUY_CONFIDENCE_MIN + va.2 + ma.2 + ba.2) 0.50 0.85
  let sell_thresh := clip SELL_THRESHOLD (-0.50) (-0.10)
  let sell_conf := clip SELL_CONFIDENCE_MIN 0.40 0.75
  { buy_threshold := round4 buy_thresh
    buy_conf_min := round4 buy_conf
    sell_threshold := round4 sell_thresh
    sell_conf_min := round4 sell_conf }

/-! Auxiliary facts for the clamping claim: every quantity entering the
final `np.clip` is an integer multiple of `1/100`, so the 4-decimal
rounding is the identity there. -/

/-- `x` is an integer number of hundredths. -/
def IsCent (x : ℚ) : Prop := ∃ k : ℤ, x = (k : ℚ) / 100

lemma isCent_add {x y : ℚ} (hx : IsCent x) (hy : IsCent y) : IsCent (x + y) := by
  obtain ⟨a, rfl⟩ := hx
  obtain ⟨b, rfl⟩ := hy
  exact ⟨a + b, by push_cast; ring⟩

lemma isCent_min {x y : ℚ} (hx : IsCent x) (hy : IsCent y) : IsCent (min x y) := by
  rcases le_total x y with h | h
  · rw [min_eq_left h]; exact hx
  · rw [min_eq_right h]; exact hy

lemma isCent_max {x y : ℚ} (hx : IsCent x) (hy : IsCent y) : IsCent (max x y) := by
  rcases le_total x y with h | h
  · rw [max_eq_right h]; exact hy
  · rw [max_eq_left h]; exact hx

lemma isCent_clip {x lo hi : ℚ} (hx : IsCent x) (hlo : IsCent lo) (hhi : IsCent hi) :
    IsCent (clip x lo hi) :=
  isCent_min (isCent_max hx hlo) hhi

lemma round4_isCent {x : ℚ} (h : IsCent x) : round4 x = x := by
  obtain ⟨k, rfl⟩ := h
  exact round4_of_den_dvd (k * 100) (by push_cast; ring)

lemma vixAdj_fst_cent (v : Option ℚ) : IsCent (vixAdj v).1 := by
  cases v with
  | none => exact ⟨0, by norm_num [vixAdj]⟩
  | some q =>
    simp only [vixAdj]
    split_ifs
    · exact ⟨15, by norm_num⟩
    · exact ⟨10, by norm_num⟩
    · exact ⟨5, by norm_num⟩
    · exact ⟨-5, by norm_num⟩
    · exact ⟨0, by norm_num⟩
    · exact ⟨0, by norm_num⟩

lemma vixAdj_snd_cent (v : Option ℚ) : IsCent (vixAdj v).2 := by
  cases v with
  | none => exact ⟨0, by norm_num [vixAdj]⟩
  | some q =>
    simp only [vixAdj]
    split_ifs
    · exact ⟨10, by norm_num⟩
    · exact ⟨7, by norm_num⟩
    · exact ⟨3, by norm_num⟩
    · exact ⟨-3, by norm_num⟩
    · exact ⟨0, by norm_num⟩
    · exact ⟨0, by norm_num⟩

lemma macroRegimeAdj_fst_cent (r : Option String) : IsCent (macroRegimeAdj r).1 := by
  simp only [macroRegimeAdj]
  split_ifs
  · exact ⟨8, by norm_num⟩
  · exact ⟨4, by norm_num⟩
  · exact ⟨-3, by norm_num⟩
  · exact ⟨-1, by norm_num⟩
  · exact ⟨0, by norm_num⟩

lemma macroRegimeAdj_snd_cent (r : Option String) : IsCent (macroRegimeAdj r).2 := by
  simp only [macroRegimeAdj]
  split_ifs
  · exact ⟨5, by norm_num⟩
  · exact ⟨2, by norm_num⟩
  · exact ⟨0, by norm_num⟩
  · exact ⟨0, by norm_num⟩
  · exact ⟨0, by norm_num⟩

lemma breadthRegimeAdj_fst_cent (r : Option String) : IsCent (breadthRegimeAdj r).1 := by
  simp only [breadthRegimeAdj]
  split_ifs
  · exact ⟨6, by norm_num⟩
  · exact ⟨3, by norm_num⟩
  · exact ⟨-2, by norm_num⟩
  · exact ⟨0, by norm_num⟩

lemma breadthRegimeAdj_snd_cent (r : Option String) : IsCent (breadthRegimeAdj r).2 := by
  simp only [breadthRegimeAdj]
  split_ifs
  · exact ⟨4, by norm_num⟩
  · exact ⟨2, by norm_num⟩
  · exact ⟨0, by norm_num⟩
  · exact ⟨0, by norm_num⟩

lemma clip_mem {x lo hi : ℚ} (h : lo ≤ hi) : lo ≤ clip x lo hi ∧ clip x lo hi ≤ hi := by
  constructor
  · exact le_min (le_max_right x lo) h
  · exact min_le_right _ _

lemma round4_clip_bounds {x lo hi : ℚ} (hx : IsCent x) (hlo : IsCent lo)
    (hhi : IsCent hi) (h : lo ≤ hi) :
    lo ≤ round4 (clip x lo hi) ∧ round4 (clip x lo hi) ≤ hi := by
  rw [round4_isCent (isCent_clip hx hlo hhi)]
  exact clip_mem h

/-- C4: For every input (any VIX level or none, any macro regime string or
none, any breadth regime string or none), the thresholds returned by
`get_adaptive_thresholds` satisfy `buy_threshold ∈ [0.15, 0.55]`,
`buy_conf_min ∈ [0.50, 0.85]`, `sell_threshold ∈ [-0.50, -0.10]` and
`sell_conf_min ∈ [0.40, 0.75]`. -/
theorem adaptive_thresholds_clamped (v : Option ℚ) (m b : Option String) :
    (0.15 ≤ (get_adaptive_thresholds v m b).buy_threshold ∧
      (get_adaptive_thresholds v m b).buy_threshold ≤ 0.55) ∧
    (0.50 ≤ (get_adaptive_thresholds v m b).buy_conf_min ∧
      (get_adaptive_thresholds v m b).buy_conf_min ≤ 0.85) ∧
    (-0.50 ≤ (get_adaptive_thresholds v m b).sell_threshold ∧
      (get_adaptive_thresholds v m b).sell_threshold ≤ -0.10) ∧
    (0.40 ≤ (get_adaptive_thresholds v m b).sell_conf_min ∧
      (get_adaptive_thresholds v m b).sell_conf_min ≤ 0.75) := by
  have hbt : IsCent (BUY_THRESHOLD + (vixAdj v).1 + (macroRegimeAdj m).1 +
      (breadthRegimeAdj b).1) :=
    isCent_add (isCent_add (isCent_add ⟨30, by norm_num [BUY_THRESHOLD]⟩
      (vixAdj_fst_cent v)) (macroRegimeAdj_fst_cent m)) (breadthRegimeAdj_fst_cent b)
  have hbc : IsCent (BUY_CONFIDENCE_MIN + (vixAdj v).2 + (macroRegimeAdj m).2 +
      (breadthRegimeAdj b).2) :=
    isCent_add (isCent_add (isCent_add ⟨65, by norm_num [BUY_CONFIDENCE_MIN]⟩
      (vixAdj_snd_cent v)) (macroRegimeAdj_snd_cent m)) (breadthRegimeAdj_snd_cent b)
  have hst : IsCent SELL_THRESHOLD := ⟨-20, by norm_num [SELL_THRESHOLD]⟩
  have hsc : IsCent SELL_CONFIDENCE_MIN := ⟨50, by norm_num [SELL_CONFIDENCE_MIN]⟩
  simp only [get_adaptive_thresholds]
  exact ⟨round4_clip_bounds hbt ⟨15, by norm_num⟩ ⟨55, by norm_num⟩ (by norm_num),
    round4_clip_bounds hbc ⟨50, by norm_num⟩ ⟨85, by norm_num⟩ (by norm_num),
    round4_clip_bounds hst ⟨-50, by norm_num⟩ ⟨-10, by norm_num⟩ (by norm_num),
    round4_clip_bounds hsc ⟨40, by norm_num⟩ ⟨75, by norm_num⟩ (by norm_num)⟩

/-! ### `src/strategy/signal_combiner.py` — inputs

Python dicts carrying the factor data become records.  The factor
weights are obtained by `combine_signals` through the cached, DB-backed
`get_adaptive_weights()`; the embedding takes the weight dict `w` as an
explicit parameter instead. -/

structure Factor where
  score : ℚ
  confidence : ℚ
deriving DecidableEq

structure MacroSig where
  score : ℚ
  regime : String
  confidence : ℚ
  vix_level : Option ℚ
deriving DecidableEq

structure MTFSig where
  score : ℚ
  alignment : ℚ
  timeframes_available : Bool
deriving DecidableEq

structure EarningsFilter where
  confidence_multiplier : ℚ
  is_earnings_today : Bool
deriving DecidableEq

structure BreadthSig where
  regime : String
  score : ℚ
deriving DecidableEq

structure AnalystSig where
  score : ℚ
  total_ratings : ℤ
deriving DecidableEq

structure IntermarketSig where
  score : ℚ
  regime : String
deriving DecidableEq

structure FearGreedSig where
  score : ℚ
  confidence : ℚ
deriving DecidableEq

structure SectorSig where
  regime : Option String
  modifier : ℚ
deriving DecidableEq

structure ShortInterestSig where
  score : ℚ
  confidence : ℚ
  regime : Option String
deriving DecidableEq

structure OptionsSig where
  score : ℚ
  confidence : ℚ
  regime : Option String
deriving DecidableEq

structure Weights where
  technical : ℚ
  sentiment : ℚ
  ml : ℚ
  macroW : ℚ
deriving DecidableEq

/-- The argument tuple of `combine_signals`. -/
structure FusionInput where
  technical : Factor
  sentiment : Factor
  ml : Factor
  macroSig : Option MacroSig := none
  mtf : Option MTFSig := none
  earnings_filter : Option EarningsFilter := none
  breadth : Option BreadthSig := none
  analyst : Option AnalystSig := none
  intermarket : Option IntermarketSig := none
  fear_greed : Option FearGreedSig := none
  sector : Option SectorSig := none
  short_interest : Option ShortInterestSig := none
  options : Option OptionsSig := none
deriving DecidableEq

/-! Each definition below is the final value of the homonymous local
variable in the body of `combine_signals`, in source order. -/

/-- `s_score` after the analyst-consensus blend. -/
def sScoreAfterAnalyst (inp : FusionInput) : ℚ :=
  match inp.analyst with
  | some a =>
    if 0 < a.total_ratings then 0.70 * inp.sentiment.score + 0.30 * a.score
    else inp.sentiment.score
  | none => inp.sentiment.score

/-- `s_score` after the fear-and-greed contrarian blend. -/
def sScoreBlended (inp : FusionInput) : ℚ :=
  match inp.fear_greed with
  | some fg =>
    if 0 < fg.confidence then 0.80 * sScoreAfterAnalyst inp + 0.20 * fg.score
    else sScoreAfterAnalyst inp
  | none => sScoreAfterAnalyst inp

/-- `t_score` after the multi-timeframe blend. -/
def tScoreBlended (inp : FusionInput) : ℚ :=
  match inp.mtf with
  | some mt =>
    if mt.timeframes_available then 0.70 * inp.technical.score + 0.30 * mt.score
    else inp.technical.score
  | none => inp.technical.score

/-- `t_conf` after the multi-timeframe alignment delta. -/
def tConfBlended (inp : FusionInput) : ℚ :=
  match inp.mtf with
  | some mt =>
    if mt.timeframes_available then
      clip (inp.technical.confidence + (mt.alignment - 0.5) * 0.30) 0 1
    else inp.technical.confidence
  | none => inp.technical.confidence

/-- `macro_score_val`. -/
def macroScoreVal (inp : FusionInput) : ℚ :=
  match inp.macroSig with
  | some m => m.score
  | none => 0

/-- `macro_conf`. -/
def macroConfVal (inp : FusionInput) : ℚ :=
  match inp.macroSig with
  | some m => m.confidence
  | none => 0

/-- The effective weights `(wt, ws, wm, wmacro)`: the macro weight is
proportionally redistributed when the macro factor is absent. -/
def effWeights (w : Weights) (inp : FusionInput) : Weights :=
  match inp.macroSig with
  | some _ => w
  | none =>
    let other_sum := w.technical + w.sentiment + w.ml
    let scale := if 0 < other_sum then (other_sum + w.macroW) / other_sum else 1
    { technical := w.technical * scale
      sentiment := w.sentiment * scale
      ml := w.ml * scale
      macroW := 0 }

/-- `composite` as first computed (the weighted sum, before the
intermarket / sector / short-interest blends). -/
def composite0 (w : Weights) (inp : FusionInput) : ℚ :=
  (effWeights w inp).technical * tScoreBlended inp +
    (effWeights w inp).sentiment * sScoreBlended inp +
    (effWeights w inp).ml * inp.ml.score +
    (effWeights w inp).macroW * macroScoreVal inp

/-- `base_confidence` (the Python `wt + ws + wm or 1.0` falls back to 1
exactly when the sum is zero). -/
def baseConfidence (w : Weights) (inp : FusionInput) : ℚ :=
  let ew := effWeights w inp
  if 0 < ew.macroW then
    ew.technical * tConfBlended inp + ew.sentiment * inp.sentiment.confidence +
      ew.ml * inp.ml.confidence + ew.macroW * macroConfVal inp
  else
    let total_w := if ew.technical + ew.sentiment + ew.ml = 0 then 1
      else ew.technical + ew.sentiment + ew.ml
    (ew.technical * tConfBlended inp + ew.sentiment * inp.sentiment.confidence +
      ew.ml * inp.ml.confidence) / total_w

/-- The `scores` list fed to the divergence penalty. -/
def scoresList (inp : FusionInput) : List ℚ :=
  [tScoreBlended inp, sScoreBlended inp, inp.ml.score] ++
    (match inp.macroSig with
     | some _ => [macroScoreVal inp]
     | none => [])

def listMean (l : List ℚ) : ℚ := l.sum / l.length

/-- Population variance, i.e. `np.std(l) ** 2`. -/
def listVar (l : List ℚ) : ℚ := ((l.map (fun x => (x - listMean l) ^ 2)).sum) / l.length

/-- One entry of the `directions` list: `np.sign(s) if abs(s) > 0.05 else 0`. -/
def dirSign (s : ℚ) : ℤ := if 0.05 < |s| then sign s else 0

/-- `disagreement_count = len(set(d for d in directions if d != 0))`:
the number of distinct nonzero entries. -/
def disagreementCount (inp : FusionInput) : ℕ :=
  (((scoresList inp).map dirSign).filter (fun d => d ≠ 0)).dedup.length

/-- `divergence_penalty`.  `score_std > 0.3` is encoded as the equivalent
comparison `variance > 0.09` (both sides of the original are
nonnegative, so squaring is an order isomorphism); this keeps the
embedding inside exact rational arithmetic. -/
def divergencePenalty (inp : FusionInput) : ℚ :=
  if 2 ≤ disagreementCount inp then 0.30
  else if 0.09 < listVar (scoresList inp) then 0.15
  else 0.0

/-- `confidence` right after the divergence penalty. -/
def confAfterDivergence (w : Weights) (inp : FusionInput) : ℚ :=
  clip (baseConfidence w inp - divergencePenalty inp) 0 1

/-- The earnings-filter confidence multiplier block. -/
def applyEarnings (e : Option EarningsFilter) (c : ℚ) : ℚ :=
  match e with
  | some f => clip (c * f.confidence_multiplier) 0 1
  | none => c

/-- The market-breadth confidence block. -/
def applyBreadth (b : Option BreadthSig) (composite c : ℚ) : ℚ :=
  match b with
  | some br =>
    if br.regime = "POOR" then clip (c * 0.75) 0 1
    else if br.regime = "WEAK" then clip (c * 0.88) 0 1
    else if br.regime = "HEALTHY" ∧ 0.2 < |composite| then clip (c * 1.05) 0 1
    else c
  | none => c

/-- The analyst confidence-boost block. -/
def applyAnalystBoost (a : Option AnalystSig) (composite c : ℚ) : ℚ :=
  match a with
  | some an =>
    if 0 < an.total_ratings ∧
        ((0.1 < composite ∧ 0.3 < an.score) ∨ (composite < -0.1 ∧ an.score < -0.3)) then
      clip (c + 0.05) 0 1
    else c
  | none => c

/-- The intermarket block: returns the new `(composite, confidence)`;
the confidence modifier tests the freshly blended composite. -/
def applyIntermarket (im : Option IntermarketSig) (composite c : ℚ) : ℚ × ℚ :=
  match im with
  | some i =>
    let composite2 := clip (0.90 * composite + 0.10 * i.score) (-1) 1
    let c2 :=
      if i.regime = "RISK_OFF" ∧ 0.1 < composite2 then clip (c * 0.88) 0 1
      else if i.regime = "RISK_ON" ∧ 0.1 < composite2 then clip (c * 1.04) 0 1
      else c
    (composite2, c2)
  | none => (composite, c)

/-- The sector-rotation block (guarded by `regime not in (None, "N/A")`). -/
def applySector (s : Option SectorSig) (composite : ℚ) : ℚ :=
  match s with
  | some sec =>
    if sec.regime ≠ none ∧ sec.regime ≠ some "N/A" then
      clip (composite + sec.modifier) (-1) 1
    else composite
  | none => composite

/-- The short-interest block: returns the new `(composite, confidence)`. -/
def applyShortInterest (si : Option ShortInterestSig) (composite c : ℚ) : ℚ × ℚ :=
  match si with
  | some s =>
    if s.regime ≠ none ∧ s.regime ≠ some "N/A" then
      if 0.3 < s.confidence ∧ 0.05 < |s.score| then
        let composite2 := clip (0.95 * composite + 0.05 * s.score) (-1) 1
        let c2 :=
          if (s.regime = some "SQUEEZE" ∨ s.regime = some "SQUEEZE_BUILD") ∧
              0.05 < composite2 then
            clip (c + 0.04) 0 1
          else c
        (composite2, c2)
      else (composite, c)
    else (composite, c)
  | none => (composite, c)

/-- The options block: in the source it rewrites `s_score` (the
sentiment component) and possibly boosts the confidence; it never
writes `composite`.  Returns the new `(s_score, confidence)`. -/
def applyOptions (o : Option OptionsSig) (s_score composite c : ℚ) : ℚ × ℚ :=
  match o with
  | some op =>
    if op.regime ≠ none ∧ op.regime ≠ some "N/A" then
      if 0.3 < op.confidence ∧ 0.05 < |op.score| then
        let s2 := clip (0.92 * s_score + 0.08 * op.score) (-1) 1
        let c2 :=
          if (0.05 < op.score ∧ 0 < composite) ∨ (op.score < -0.05 ∧ composite < 0) then
            clip (c + 0.04) 0 1
          else c
        (s2, c2)
      else (s_score, c)
    else (s_score, c)
  | none => (s_score, c)

def confAfterEarnings (w : Weights) (inp : FusionInput) : ℚ :=
  applyEarnings inp.earnings_filter (confAfterDivergence w inp)

/-- The local `breadth_regime` string (defaults to "NEUTRAL"). -/
def breadthRegimeStr (inp : FusionInput) : String :=
  match inp.breadth with
  | some b => b.regime
  | none => "NEUTRAL"

def confAfterBreadth (w : Weights) (inp : FusionInput) : ℚ :=
  applyBreadth inp.breadth (composite0 w inp) (confAfterEarnings w inp)

def confAfterAnalyst (w : Weights) (inp : FusionInput) : ℚ :=
  applyAnalystBoost inp.analyst (composite0 w inp) (confAfterBreadth w inp)

def interPair (w : Weights) (inp : FusionInput) : ℚ × ℚ :=
  applyIntermarket inp.intermarket (composite0 w inp) (confAfterAnalyst w inp)

def compositeAfterSector (w : Weights) (inp : FusionInput) : ℚ :=
  applySector inp.sector (interPair w inp).1

def siPair (w : Weights) (inp : FusionInput) : ℚ × ℚ :=
  applyShortInterest inp.short_interest (compositeAfterSector w inp) (interPair w inp).2

/-- The final value of the local `composite`: this is what the
direction assignment compares against the thresholds. -/
def compositeFinal (w : Weights) (inp : FusionInput) : ℚ := (siPair w inp).1

def optPair (w : Weights) (inp : FusionInput) : ℚ × ℚ :=
  applyOptions inp.options (sScoreBlended inp) (compositeFinal w inp) (siPair w inp).2

/-- The final value of the local `s_score`. -/
def sScoreFinal (w : Weights) (inp : FusionInput) : ℚ := (optPair w inp).1

/-- The final value of the local `confidence`. -/
def confFinal (w : Weights) (inp : FusionInput) : ℚ := (optPair w inp).2

/-- The `vix_lvl` argument handed to `get_adaptive_thresholds`
(only used when the macro dict is present and its VIX is positive). -/
def vixArg (inp : FusionInput) : Option ℚ :=
  match inp.macroSig with
  | some m =>
    match m.vix_level with
    | some v => if 0 < v then some v else none
    | none => none
  | none => none

/-- The `macro_regime` argument: `None` when the macro dict is absent. -/
def macroRegimeArg (inp : FusionInput) : Option String :=
  inp.macroSig.map (fun m => m.regime)

/-- The `adaptive` threshold dict computed inside `combine_signals`. -/
def adaptiveOf (inp : FusionInput) : Thresholds :=
  get_adaptive_thresholds (vixArg inp) (macroRegimeArg inp) (some (breadthRegimeStr inp))

/-- The earnings-today override test guarding the direction. -/
def earningsToday (inp : FusionInput) : Bool :=
  match inp.earnings_filter with
  | some e => e.is_earnings_today
  | none => false

inductive Direction
  | BUY
  | SELL
  | HOLD
deriving DecidableEq

/-- The direction block of `combine_signals`. -/
def directionOf (w : Weights) (inp : FusionInput) : Direction :=
  if earningsToday inp then Direction.HOLD
  else if (adaptiveOf inp).buy_threshold < compositeFinal w inp ∧
      (adaptiveOf inp).buy_conf_min ≤ confFinal w inp then Direction.BUY
  else if compositeFinal w inp < (adaptiveOf inp).sell_threshold ∧
      (adaptiveOf inp).sell_conf_min ≤ confFinal w inp then Direction.SELL
  else Direction.HOLD

/-- The fields of the returned dict that the claims are about. -/
structure CombinedSignal where
  direction : Direction
  strength : ℚ
  confidence : ℚ
  technical_score : ℚ
  sentiment_score : ℚ
  ml_score : ℚ
  thresholds : Thresholds
deriving DecidableEq

/-- `combine_signals(technical, sentiment, ml, macro=…, …)` with the
weight dict `w` passed explicitly. -/
def combine_signals (w : Weights) (inp : FusionInput) : CombinedSignal :=
  { direction := directionOf w inp
    strength := round4 (clip (compositeFinal w inp) (-1) 1)
    confidence := round4 (confFinal w inp)
    technical_score := round4 (tScoreBlended inp)
    sentiment_score := round4 (sScoreFinal w inp)
    ml_score := round4 inp.ml.score
    thresholds := adaptiveOf inp }

/-- The configured prior weights `SIGNAL_WEIGHTS` from `src/config.py`. -/
def SIGNAL_WEIGHTS : Weights :=
  { technical := 0.30, sentiment := 0.20, ml := 0.35, macroW := 0.15 }

/-- C1: For every fusion input, `combine_signals` assigns direction as
follows: earnings-today forces HOLD; otherwise BUY exactly when
`composite > buy_threshold ∧ confidence ≥ buy_conf_min`, SELL exactly
when `composite < sell_threshold ∧ confidence ≥ sell_conf_min`, HOLD
otherwise — the four thresholds being the adaptive thresholds computed
from the VIX level, the macro regime and the breadth regime. -/
theorem combine_signals_direction_rule (w : Weights) (inp : FusionInput) :
    (combine_signals w inp).direction =
      (if earningsToday inp then Direction.HOLD
       else if (get_adaptive_thresholds (vixArg inp) (macroRegimeArg inp)
               (some (breadthRegimeStr inp))).buy_threshold < compositeFinal w inp ∧
           (get_adaptive_thresholds (vixArg inp) (macroRegimeArg inp)
               (some (breadthRegimeStr inp))).buy_conf_min ≤ confFinal w inp then
         Direction.BUY
       else if compositeFinal w inp < (get_adaptive_thresholds (vixArg inp)
               (macroRegimeArg inp) (some (breadthRegimeStr inp))).sell_threshold ∧
           (get_adaptive_thresholds (vixArg inp) (macroRegimeArg inp)
               (some (breadthRegimeStr inp))).sell_conf_min ≤ confFinal w inp then
         Direction.SELL
       else Direction.HOLD) := rfl

/-- C2 (amended): when the options factor passes its gate
(`confidence > 0.3` and `|score| > 0.05`) its score is blended into the
sentiment component as `0.92·sent + 0.08·opt` (then clipped), but the
composite that the direction assignment uses is computed before the
options block and is left unchanged by it. -/
theorem options_blend_sentiment_only (w : Weights) (inp : FusionInput) (op : OptionsSig)
    (hop : inp.options = some op)
    (hreg : op.regime ≠ none ∧ op.regime ≠ some "N/A")
    (hconf : 0.3 < op.confidence) (hsc : 0.05 < |op.score|) :
    sScoreFinal w inp = clip (0.92 * sScoreBlended inp + 0.08 * op.score) (-1) 1 ∧
    compositeFinal w inp = compositeFinal w { inp with options := none } := by
  constructor
  · simp only [sScoreFinal, optPair, hop, applyOptions]
    rw [if_pos hreg, if_pos ⟨hconf, hsc⟩]
  · rfl

def c2w : Weights := SIGNAL_WEIGHTS

def inpC2 : FusionInput :=
  { technical := ⟨0.5, 0.8⟩
    sentiment := ⟨0.5, 0.8⟩
    ml := ⟨0.5, 0.8⟩
    macroSig := some ⟨0.5, "NEUTRAL", 0.8, none⟩
    options := some ⟨-0.5, 0.5, some "CONTRARIAN"⟩ }

/-- `inpC2` with the options factor removed. -/
def inpC2no : FusionInput :=
  { technical := ⟨0.5, 0.8⟩
    sentiment := ⟨0.5, 0.8⟩
    ml := ⟨0.5, 0.8⟩
    macroSig := some ⟨0.5, "NEUTRAL", 0.8, none⟩ }

/-- With no VIX and NEUTRAL macro / NEUTRAL breadth regimes the adaptive
thresholds are the configured base thresholds. -/
lemma thresholds_neutral :
    get_adaptive_thresholds none (some "NEUTRAL") (some "NEUTRAL") =
      { buy_threshold := 0.3, buy_conf_min := 0.65,
        sell_threshold := -0.2, sell_conf_min := 0.5 } := by
  have h1 : macroRegimeAdj (some "NEUTRAL") = (0, 0) := by simp [macroRegimeAdj]
  have h2 : breadthRegimeAdj (some "NEUTRAL") = (0, 0) := by simp [breadthRegimeAdj]
  simp only [get_adaptive_thresholds, vixAdj, h1, h2]
  norm_num [clip, min_def, max_def, BUY_THRESHOLD, BUY_CONFIDENCE_MIN, SELL_THRESHOLD,
    SELL_CONFIDENCE_MIN, round4, roundHalfEven, Thresholds.mk.injEq]

lemma inpC2_composite : compositeFinal c2w inpC2 = 0.5 := by
  norm_num [compositeFinal, siPair, applyShortInterest, compositeAfterSector,
    applySector, interPair, applyIntermarket, composite0, effWeights, tScoreBlended,
    sScoreBlended, sScoreAfterAnalyst, macroScoreVal, inpC2, c2w, SIGNAL_WEIGHTS]

lemma inpC2no_composite : compositeFinal c2w inpC2no = 0.5 := by
  norm_num [compositeFinal, siPair, applyShortInterest, compositeAfterSector,
    applySector, interPair, applyIntermarket, composite0, effWeights, tScoreBlended,
    sScoreBlended, sScoreAfterAnalyst, macroScoreVal, inpC2no, c2w, SIGNAL_WEIGHTS]

lemma inpC2_confFinal : confFinal c2w inpC2 = 0.8 := by
  have hbase : baseConfidence c2w inpC2 = 0.8 := by
    norm_num [baseConfidence, effWeights, tConfBlended, macroConfVal, inpC2, c2w,
      SIGNAL_WEIGHTS]
  have hpen : divergencePenalty inpC2 = 0 := by
    have hvar : listVar (scoresList inpC2) = 0 := by
      norm_num [listVar, listMean, scoresList, tScoreBlended, sScoreBlended,
        sScoreAfterAnalyst, macroScoreVal, inpC2]
    have hcount : disagreementCount inpC2 = 1 := by
      have hdirs : (scoresList inpC2).map dirSign = [1, 1, 1, 1] := by
        norm_num [scoresList, tScoreBlended, sScoreBlended, sScoreAfterAnalyst,
          macroScoreVal, inpC2, dirSign, sign, abs_of_pos]
      rw [disagreementCount, hdirs]
      decide
    rw [divergencePenalty, hcount, hvar]
    norm_num
  have hdiv : confAfterDivergence c2w inpC2 = 0.8 := by
    rw [confAfterDivergence, hbase, hpen]
    norm_num [clip, min_def, max_def]
  have hopts : confFinal c2w inpC2 = (siPair c2w inpC2).2 := by
    rw [confFinal, optPair, show inpC2.options = some ⟨-0.5, 0.5, some "CONTRARIAN"⟩
      from rfl]
    simp only [applyOptions]
    rw [if_pos ⟨by decide, by decide⟩, if_pos ⟨by norm_num, by norm_num [abs_neg,
      abs_of_pos]⟩]
    rw [if_neg]
    rw [inpC2_composite]
    norm_num
  rw [hopts]
  simp only [siPair, applyShortInterest, interPair, applyIntermarket, confAfterAnalyst,
    applyAnalystBoost, confAfterBreadth, applyBreadth, confAfterEarnings, applyEarnings,
    show inpC2.short_interest = none from rfl, show inpC2.intermarket = none from rfl,
    show inpC2.analyst = none from rfl, show inpC2.breadth = none from rfl,
    show inpC2.earnings_filter = none from rfl]
  exact hdiv

lemma inpC2no_confFinal : confFinal c2w inpC2no = 0.8 := by
  have hbase : baseConfidence c2w inpC2no = 0.8 := by
    norm_num [baseConfidence, effWeights, tConfBlended, macroConfVal, inpC2no, c2w,
      SIGNAL_WEIGHTS]
  have hpen : divergencePenalty inpC2no = 0 := by
    have hvar : listVar (scoresList inpC2no) = 0 := by
      norm_num [listVar, listMean, scoresList, tScoreBlended, sScoreBlended,
        sScoreAfterAnalyst, macroScoreVal, inpC2no]
    have hcount : disagreementCount inpC2no = 1 := by
      have hdirs : (scoresList inpC2no).map dirSign = [1, 1, 1, 1] := by
        norm_num [scoresList, tScoreBlended, sScoreBlended, sScoreAfterAnalyst,
          macroScoreVal, inpC2no, dirSign, sign, abs_of_pos]
      rw [disagreementCount, hdirs]
      decide
    rw [divergencePenalty, hcount, hvar]
    norm_num
  simp only [confFinal, optPair, applyOptions, siPair, applyShortInterest, interPair,
    applyIntermarket, confAfterAnalyst, applyAnalystBoost, confAfterBreadth,
    applyBreadth, confAfterEarnings, applyEarnings,
    show inpC2no.options = none from rfl, show inpC2no.short_interest = none from rfl,
    show inpC2no.intermarket = none from rfl, show inpC2no.analyst = none from rfl,
    show inpC2no.breadth = none from rfl, show inpC2no.earnings_filter = none from rfl,
    confAfterDivergence]
  rw [hbase, hpen]
  norm_num [clip, min_def, max_def]

lemma inpC2_thresholds : adaptiveOf inpC2 =
    { buy_threshold := 0.3, buy_conf_min := 0.65,
      sell_threshold := -0.2, sell_conf_min := 0.5 } := by
  rw [adaptiveOf, show vixArg inpC2 = none from rfl,
    show macroRegimeArg inpC2 = some "NEUTRAL" from rfl,
    show breadthRegimeStr inpC2 = "NEUTRAL" from rfl, thresholds_neutral]

lemma inpC2no_thresholds : adaptiveOf inpC2no =
    { buy_threshold := 0.3, buy_conf_min := 0.65,
      sell_threshold := -0.2, sell_conf_min := 0.5 } := by
  rw [adaptiveOf, show vixArg inpC2no = none from rfl,
    show macroRegimeArg inpC2no = some "NEUTRAL" from rfl,
    show breadthRegimeStr inpC2no = "NEUTRAL" from rfl, thresholds_neutral]

/-- C2 (counterexample): at a concrete input whose options factor passes
the gate, the blend visibly rewrites the reported sentiment score, yet
the composite used by the direction assignment — and the direction — are
exactly what they would be with the options factor absent: the blend does
not affect the composite. -/
theorem options_blend_counterexample :
    inpC2no = { inpC2 with options := none } ∧
    ((0.3 : ℚ) < 0.5 ∧ (0.05 : ℚ) < |(-0.5 : ℚ)|) ∧
    (combine_signals c2w inpC2).sentiment_score = 0.42 ∧
    (combine_signals c2w inpC2no).sentiment_score = 0.5 ∧
    compositeFinal c2w inpC2 = compositeFinal c2w inpC2no ∧
    (combine_signals c2w inpC2).direction = Direction.BUY ∧
    (combine_signals c2w inpC2no).direction = Direction.BUY := by
  have hs : sScoreFinal c2w inpC2 = 0.42 := by
    rw [sScoreFinal, optPair, show inpC2.options = some ⟨-0.5, 0.5, some "CONTRARIAN"⟩
      from rfl]
    simp only [applyOptions]
    rw [if_pos ⟨by decide, by decide⟩, if_pos ⟨by norm_num, by norm_num [abs_neg,
      abs_of_pos]⟩]
    have : sScoreBlended inpC2 = 0.5 := by
      norm_num [sScoreBlended, sScoreAfterAnalyst, inpC2]
    rw [this]
    norm_num [clip, min_def, max_def]
  have hsn : sScoreFinal c2w inpC2no = 0.5 := by
    simp only [sScoreFinal, optPair, applyOptions, show inpC2no.options = none from rfl]
    norm_num [sScoreBlended, sScoreAfterAnalyst, inpC2no]
  refine ⟨rfl, ⟨by norm_num, by norm_num [abs_neg, abs_of_pos]⟩, ?_, ?_, ?_, ?_, ?_⟩
  · show round4 (sScoreFinal c2w inpC2) = 0.42
    rw [hs]
    exact round4_of_den_dvd 4200 (by norm_num)
  · show round4 (sScoreFinal c2w inpC2no) = 0.5
    rw [hsn]
    exact round4_of_den_dvd 5000 (by norm_num)
  · rw [inpC2_composite, inpC2no_composite]
  · show directionOf c2w inpC2 = Direction.BUY
    rw [directionOf, show earningsToday inpC2 = false from rfl, inpC2_thresholds,
      inpC2_composite, inpC2_confFinal]
    norm_num
  · show directionOf c2w inpC2no = Direction.BUY
    rw [directionOf, show earningsToday inpC2no = false from rfl, inpC2no_thresholds,
      inpC2no_composite, inpC2no_confFinal]
    norm_num

def inpC2opts : OptionsSig := ⟨-0.5, 0.5, some "CONTRARIAN"⟩

/-- C2 witness: the amended theorem applied at the concrete input. -/
theorem options_blend_sentiment_only_witness :
    sScoreFinal c2w inpC2 = clip (0.92 * sScoreBlended inpC2 + 0.08 * (-0.5)) (-1) 1 ∧
    compositeFinal c2w inpC2 = compositeFinal c2w { inpC2 with options := none } :=
  options_blend_sentiment_only c2w inpC2 inpC2opts rfl
    ⟨by decide, by decide⟩ (by norm_num [inpC2opts])
    (by norm_num [inpC2opts, abs_neg, abs_of_pos])

/-- C3 (amended): on a fusion input whose optional modifier factors are
all absent and whose factor-score list has both a score `> 0.05` and a
score `< -0.05`, the divergence penalty is `0.30`, the fused confidence
is `clip (base − 0.30) 0 1`, and whenever the weighted average of the
factor confidences (`base_confidence`) is positive the fused confidence
is strictly below it. -/
theorem divergence_penalty_reduces_confidence (w : Weights) (inp : FusionInput)
    (hmtf : inp.mtf = none) (hearn : inp.earnings_filter = none)
    (hbr : inp.breadth = none) (han : inp.analyst = none)
    (hin : inp.intermarket = none) (hfg : inp.fear_greed = none)
    (hsec : inp.sector = none) (hsi : inp.short_interest = none)
    (hopt : inp.options = none)
    (hpos : ∃ a ∈ scoresList inp, 0.05 < a)
    (hneg : ∃ b ∈ scoresList inp, b < -0.05) :
    divergencePenalty inp = 0.30 ∧
    confFinal w inp = clip (baseConfidence w inp - 0.30) 0 1 ∧
    (0 < baseConfidence w inp → confFinal w inp < baseConfidence w inp) := by
  obtain ⟨a, ha, hagt⟩ := hpos
  obtain ⟨b, hb, hblt⟩ := hneg
  have hpen : divergencePenalty inp = 0.30 := by
    have h1 : (1 : ℤ) ∈ (((scoresList inp).map dirSign).filter (fun d => d ≠ 0)) := by
      refine List.mem_filter.mpr ⟨List.mem_map.mpr ⟨a, ha, ?_⟩, by decide⟩
      have habs : (0.05 : ℚ) < |a| := lt_of_lt_of_le hagt (le_abs_self a)
      have hapos : (0 : ℚ) < a := lt_trans (by norm_num) hagt
      simp [dirSign, sign, habs, hapos]
    have h2 : (-1 : ℤ) ∈ (((scoresList inp).map dirSign).filter (fun d => d ≠ 0)) := by
      refine List.mem_filter.mpr ⟨List.mem_map.mpr ⟨b, hb, ?_⟩, by decide⟩
      have hbneg : b < 0 := lt_trans hblt (by norm_num)
      have habs : (0.05 : ℚ) < |b| := by
        have : (0.05 : ℚ) < -b := by linarith
        exact lt_of_lt_of_le this (neg_le_abs b)
      simp [dirSign, sign, habs, hbneg, asymm hbneg]
    have hsub : ({-1, 1} : Finset ℤ) ⊆
        (((scoresList inp).map dirSign).filter (fun d => d ≠ 0)).dedup.toFinset := by
      intro x hx
      rcases Finset.mem_insert.mp hx with h | h
      · subst h; exact List.mem_toFinset.mpr (List.mem_dedup.mpr h2)
      · rw [Finset.mem_singleton.mp h]
        exact List.mem_toFinset.mpr (List.mem_dedup.mpr h1)
    have hcard : 2 ≤ disagreementCount inp := by
      have hc1 : ({-1, 1} : Finset ℤ).card = 2 := rfl
      calc (2 : ℕ) = ({-1, 1} : Finset ℤ).card := hc1.symm
        _ ≤ (((scoresList inp).map dirSign).filter
              (fun d => d ≠ 0)).dedup.toFinset.card := Finset.card_le_card hsub
        _ ≤ _ := List.toFinset_card_le _
    unfold divergencePenalty
    rw [if_pos hcard]
  refine ⟨hpen, ?_, ?_⟩
  · simp only [confFinal, optPair, hopt, applyOptions, siPair, hsi, applyShortInterest,
      interPair, hin, applyIntermarket, confAfterAnalyst, han, applyAnalystBoost,
      confAfterBreadth, hbr, applyBreadth, confAfterEarnings, hearn, applyEarnings,
      confAfterDivergence, hpen]
  · intro hbase
    have hconf : confFinal w inp = clip (baseConfidence w inp - 0.30) 0 1 := by
      simp only [confFinal, optPair, hopt, applyOptions, siPair, hsi, applyShortInterest,
        interPair, hin, applyIntermarket, confAfterAnalyst, han, applyAnalystBoost,
        confAfterBreadth, hbr, applyBreadth, confAfterEarnings, hearn, applyEarnings,
        confAfterDivergence, hpen]
    rw [hconf]
    calc clip (baseConfidence w inp - 0.30) 0 1
        ≤ max (baseConfidence w inp - 0.30) 0 := min_le_left _ _
      _ < baseConfidence w inp := max_lt (by linarith) hbase

def c3w : Weights := SIGNAL_WEIGHTS

/-- Spec scenario S2: conflicting factors. -/
def inpC3 : FusionInput :=
  { technical := ⟨0.5, 0.7⟩
    sentiment := ⟨-0.4, 0.6⟩
    ml := ⟨0.1, 0.5⟩ }

/-- C3 witness: the amended theorem applied to the conflicting-factor
scenario. -/
theorem divergence_penalty_reduces_confidence_witness :
    divergencePenalty inpC3 = 0.30 ∧
    confFinal c3w inpC3 < baseConfidence c3w inpC3 := by
  have hpos : ∃ a ∈ scoresList inpC3, (0.05 : ℚ) < a :=
    ⟨0.5, by simp [scoresList, tScoreBlended, sScoreBlended, sScoreAfterAnalyst, inpC3],
      by norm_num⟩
  have hneg : ∃ b ∈ scoresList inpC3, b < -(0.05 : ℚ) :=
    ⟨-0.4, by simp [scoresList, tScoreBlended, sScoreBlended, sScoreAfterAnalyst, inpC3],
      by norm_num⟩
  have h := divergence_penalty_reduces_confidence c3w inpC3 rfl rfl rfl rfl rfl rfl
    rfl rfl rfl hpos hneg
  refine ⟨h.1, h.2.2 ?_⟩
  norm_num [baseConfidence, effWeights, tConfBlended, macroConfVal, inpC3, c3w,
    SIGNAL_WEIGHTS]

/-- All-zero-confidence divergent input. -/
def inpC3zero : FusionInput :=
  { technical := ⟨0.5, 0⟩
    sentiment := ⟨-0.5, 0⟩
    ml := ⟨0, 0⟩ }

/-- C3 (counterexample): with divergent factor scores but all factor
confidences zero, the 0.30 penalty is applied yet the fused confidence
equals the weighted average of the factor confidences (both are 0), so
it is not strictly less. -/
theorem divergence_strictness_counterexample :
    (∃ a ∈ scoresList inpC3zero, (0.05 : ℚ) < a) ∧
    (∃ b ∈ scoresList inpC3zero, b < -(0.05 : ℚ)) ∧
    divergencePenalty inpC3zero = 0.30 ∧
    confFinal c3w inpC3zero = baseConfidence c3w inpC3zero := by
  have hscores : scoresList inpC3zero = [0.5, -0.5, 0] := by
    norm_num [scoresList, tScoreBlended, sScoreBlended, sScoreAfterAnalyst, inpC3zero]
  have hdirs : (scoresList inpC3zero).map dirSign = [1, -1, 0] := by
    rw [hscores]
    norm_num [dirSign, sign, abs_neg, abs_of_pos]
  have hcount : disagreementCount inpC3zero = 2 := by
    rw [disagreementCount, hdirs]
    decide
  have hpen : divergencePenalty inpC3zero = 0.30 := by
    rw [divergencePenalty, hcount]
    norm_num
  have hbase : baseConfidence c3w inpC3zero = 0 := by
    norm_num [baseConfidence, effWeights, tConfBlended, macroConfVal, inpC3zero, c3w,
      SIGNAL_WEIGHTS]
  refine ⟨⟨0.5, by rw [hscores]; norm_num, by norm_num⟩,
    ⟨-0.5, by rw [hscores]; norm_num, by norm_num⟩, hpen, ?_⟩
  have hcf : confFinal c3w inpC3zero =
      clip (baseConfidence c3w inpC3zero - divergencePenalty inpC3zero) 0 1 := by
    simp only [confFinal, optPair, applyOptions, siPair, applyShortInterest, interPair,
      applyIntermarket, confAfterAnalyst, applyAnalystBoost, confAfterBreadth,
      applyBreadth, confAfterEarnings, applyEarnings, confAfterDivergence, inpC3zero]
  rw [hcf, hbase, hpen]
  norm_num [clip]

/-! ### `src/strategy/paper_trader.py`

The DB-backed storage (injected accessor functions) becomes explicit
state threading: a `TraderState` carries the open positions and the
append-only trade log.  `open_paper_position` reproduces the row
defaults of `src/db/models.py` (`trailing_stop = entry·0.95`,
`highest_price = entry`). -/

structure PaperPosition where
  symbol : String
  entry_price : ℚ
  quantity : ℚ
  stop_loss : Option ℚ
  trailing_stop : Option ℚ
  highest_price : Option ℚ
deriving DecidableEq

structure PaperTrade where
  symbol : String
  action : String
  price : ℚ
  quantity : ℚ
  pnl : ℚ
deriving DecidableEq

structure TraderState where
  initial_capital : ℚ
  position_size_pct : ℚ
  commission : ℚ
  open_positions : List PaperPosition
  trades : List PaperTrade
deriving DecidableEq

/-- The `direction` / `strength` / `confidence` fields read off the
signal dict by `process_signal`. -/
structure SignalIn where
  direction : String
  strength : ℚ
  confidence : ℚ
deriving DecidableEq

/-- `PaperTrader._available_cash`. -/
def availableCash (st : TraderState) : ℚ :=
  max (st.initial_capital -
    (st.open_positions.map (fun p => p.entry_price * p.quantity)).sum) 0

/-- `PaperTrader.get_portfolio_value`: cash plus open positions marked
to the given prices (entry price when no quote). -/
def get_portfolio_value (st : TraderState) (prices : String → Option ℚ) : ℚ :=
  availableCash st +
    (st.open_positions.map (fun p => p.quantity * ((prices p.symbol).getD p.entry_price))).sum

/-- `db/models.py::open_paper_position` row defaults. -/
def open_paper_position (symbol : String) (entry_price quantity : ℚ)
    (stop_loss : Option ℚ) : PaperPosition :=
  { symbol := symbol
    entry_price := entry_price
    quantity := quantity
    stop_loss := stop_loss
    trailing_stop := some (entry_price * 0.95)
    highest_price := some entry_price }

/-- `PaperTrader.process_signal`.  Returns the new state and the action
string (`"BUY"`, `"SELL"` or `None`). -/
def process_signal (st : TraderState) (symbol : String) (signal : SignalIn)
    (current_price : ℚ) (atr : Option ℚ) : TraderState × Option String :=
  if signal.direction = "BUY" ∧ BUY_THRESHOLD ≤ signal.strength ∧
      BUY_CONFIDENCE_MIN ≤ signal.confidence ∧
      symbol ∉ st.open_positions.map (fun p => p.symbol) then
    let portfolio_val := get_portfolio_value st
      (fun s => if s = symbol then some current_price else none)
    let pos_value := portfolio_val * st.position_size_pct
    let quantity := pos_value / current_price
    let cost := quantity * current_price * (1 + st.commission)
    let cash := availableCash st
    if cash < cost then (st, none)
    else
      let stop := match atr with
        | some a =>
          if 0 < a then current_price - STOP_LOSS_atr_multiplier * a
          else current_price * (1 - 0.05)
        | none => current_price * (1 - 0.05)
      ({ st with
          open_positions :=
            st.open_positions ++ [open_paper_position symbol current_price quantity (some stop)]
          trades := st.trades ++ [⟨symbol, "BUY", current_price, quantity, 0⟩] },
        some "BUY")
  else if signal.direction = "SELL" ∧
      symbol ∈ st.open_positions.map (fun p => p.symbol) then
    match st.open_positions.find? (fun p => p.symbol == symbol) with
    | some pos =>
      let pnl := (current_price - pos.entry_price) * pos.quantity -
        pos.quantity * current_price * st.commission
      ({ st with
          open_positions := st.open_positions.eraseP (fun p => p.symbol == symbol)
          trades := st.trades ++ [⟨symbol, "SELL", current_price, pos.quantity, pnl⟩] },
        some "SELL")
    | none => (st, none)
  else (st, none)

/-- One open position's pass through the loop body of
`update_positions`: the trailing-stop lift is written back through
`_update_position`, while the stop evaluation reads the row as fetched
(the local `pos` dict is not mutated by the write).  Returns the
position still open (or `none` when stopped out) and the STOP trade. -/
def updateOnePosition (commission : ℚ) (prices : String → Option ℚ)
    (pos : PaperPosition) : Option PaperPosition × Option PaperTrade :=
  match prices pos.symbol with
  | none => (some pos, none)
  | some price =>
    let high := pyOr pos.highest_price pos.entry_price
    let posW :=
      if high < price then
        { pos with
            highest_price := some price
            trailing_stop := some (price * (1 - STOP_LOSS_trailing)) }
      else pos
    let effective_stop := max (pyOr pos.stop_loss 0) (pyOr pos.trailing_stop 0)
    if 0 < effective_stop ∧ price ≤ effective_stop then
      ((none : Option PaperPosition),
        some ⟨pos.symbol, "STOP", price,
          pos.quantity,
          (price - pos.entry_price) * pos.quantity - pos.quantity * price * commission⟩)
    else (some posW, none)

/-- `PaperTrader.update_positions`: one tick over all open positions. -/
def update_positions (st : TraderState) (prices : String → Option ℚ) : TraderState :=
  let results := st.open_positions.map (updateOnePosition st.commission prices)
  { st with
      open_positions := results.filterMap Prod.fst
      trades := st.trades ++ results.filterMap Prod.snd }

/-! Scenario S5 of the spec: BUY at 100 with ATR 4, then ticks
100, 110, 108, 104, 103. -/

def c5state0 : TraderState := ⟨100000, 0.10, 0.001, [], []⟩

def c5sig : SignalIn := ⟨"BUY", 0.5, 0.8⟩

def c5prices (p : ℚ) : String → Option ℚ := fun s => if s = "AAPL" then some p else none

def c5pos0 : PaperPosition := ⟨"AAPL", 100, 100, some 92, some 95, some 100⟩

def c5pos1 : PaperPosition := ⟨"AAPL", 100, 100, some 92, some 102.3, some 110⟩

def c5trade : PaperTrade := ⟨"AAPL", "BUY", 100, 100, 0⟩

def c5s1 : TraderState := ⟨100000, 0.10, 0.001, [c5pos0], [c5trade]⟩

def c5s2 : TraderState := ⟨100000, 0.10, 0.001, [c5pos1], [c5trade]⟩

lemma c5_buy : process_signal c5state0 "AAPL" c5sig 100 (some 4) = (c5s1, some "BUY") := by
  norm_num [process_signal, get_portfolio_value, availableCash, open_paper_position,
    BUY_THRESHOLD, BUY_CONFIDENCE_MIN, STOP_LOSS_atr_multiplier, c5state0, c5sig, c5s1,
    c5pos0, c5trade]

lemma c5_tick100 : update_positions c5s1 (c5prices 100) = c5s1 := by
  norm_num [update_positions, updateOnePosition, pyOr, STOP_LOSS_trailing, c5prices,
    c5s1, c5pos0, List.filterMap_cons, List.filterMap_nil]

lemma c5_tick110 : update_positions c5s1 (c5prices 110) = c5s2 := by
  norm_num [update_positions, updateOnePosition, pyOr, STOP_LOSS_trailing, c5prices,
    c5s1, c5s2, c5pos0, c5pos1, c5trade, List.filterMap_cons, List.filterMap_nil]

lemma c5_tick108 : update_positions c5s2 (c5prices 108) = c5s2 := by
  norm_num [update_positions, updateOnePosition, pyOr, STOP_LOSS_trailing, c5prices,
    c5s2, c5pos1, List.filterMap_cons, List.filterMap_nil]

lemma c5_tick104 : update_positions c5s2 (c5prices 104) = c5s2 := by
  norm_num [update_positions, updateOnePosition, pyOr, STOP_LOSS_trailing, c5prices,
    c5s2, c5pos1, List.filterMap_cons, List.filterMap_nil]

lemma c5_tick103 : update_positions c5s2 (c5prices 103) = c5s2 := by
  norm_num [update_positions, updateOnePosition, pyOr, STOP_LOSS_trailing, c5prices,
    c5s2, c5pos1, List.filterMap_cons, List.filterMap_nil]

/-- The final state after the BUY and the five ticks of scenario S5. -/
def c5run : TraderState :=
  update_positions (update_positions (update_positions (update_positions
    (update_positions (process_signal c5state0 "AAPL" c5sig 100 (some 4)).1
      (c5prices 100)) (c5prices 110)) (c5prices 108)) (c5prices 104)) (c5prices 103)

/-- C5 (counterexample): the configured trailing rate is 7%
(`STOP_LOSS["trailing"] = 0.07`), so after the 110-tick the trailing
stop is 102.3, not 104.5 as the claim states, and across all five ticks
the position never closes: no STOP trade is logged. -/
theorem trailing_stop_counterexample :
    STOP_LOSS_trailing = 0.07 ∧
    (update_positions c5s1 (c5prices 110)).open_positions.map
        (fun p => p.trailing_stop) = [some 102.3] ∧
    (102.3 : ℚ) ≠ 104.5 ∧
    c5run.open_positions.map (fun p => p.symbol) = ["AAPL"] ∧
    c5run.trades.filter (fun t => t.action == "STOP") = [] := by
  have hrun : c5run = c5s2 := by
    rw [c5run, c5_buy]
    rw [show (c5s1, some "BUY").1 = c5s1 from rfl]
    rw [c5_tick100, c5_tick110, c5_tick108, c5_tick104, c5_tick103]
  refine ⟨rfl, ?_, by norm_num, ?_, ?_⟩
  · rw [c5_tick110]
    norm_num [c5s2, c5pos1]
  · rw [hrun]
    norm_num [c5s2, c5pos1]
  · rw [hrun]
    simp [c5s2, c5trade]

/-- C5 (amended): after the BUY at 100 with ATR 4 (fixed stop
`100 − 2·4 = 92`, quantity 100) and ticks 100, 110, 108, 104, 103, the
110-tick lifts the trailing stop to `110·(1−0.07) = 102.3`; the
effective stop thereafter is `max(92, 102.3) = 102.3`, and since every
later tick stays above it the position remains open throughout, with the
BUY as the only logged trade. -/
theorem trailing_stop_scenario :
    process_signal c5state0 "AAPL" c5sig 100 (some 4) = (c5s1, some "BUY") ∧
    c5pos0.stop_loss = some (100 - 2 * 4) ∧
    update_positions c5s1 (c5prices 100) = c5s1 ∧
    update_positions c5s1 (c5prices 110) = c5s2 ∧
    c5pos1.trailing_stop = some (110 * (1 - 0.07)) ∧
    max (92 : ℚ) 102.3 = 102.3 ∧
    update_positions c5s2 (c5prices 108) = c5s2 ∧
    update_positions c5s2 (c5prices 104) = c5s2 ∧
    update_positions c5s2 (c5prices 103) = c5s2 ∧
    c5run = c5s2 ∧
    c5run.trades = [c5trade] := by
  have hrun : c5run = c5s2 := by
    rw [c5run, c5_buy]
    rw [show (c5s1, some "BUY").1 = c5s1 from rfl]
    rw [c5_tick100, c5_tick110, c5_tick108, c5_tick104, c5_tick103]
  exact ⟨c5_buy, by norm_num [c5pos0], c5_tick100, c5_tick110,
    by norm_num [c5pos1], by norm_num, c5_tick108, c5_tick104, c5_tick103, hrun,
    by rw [hrun]; rfl⟩

/-- C9: `process_signal` opens a paper position for a BUY signal only
when the signal's strength is at least the static configured
`BUY_THRESHOLD = 0.30` and its confidence at least
`BUY_CONFIDENCE_MIN = 0.65`; in particular a BUY signal with strength
below 0.30 leaves the state unchanged — no position is opened and no
trade is logged. -/
theorem paper_buy_static_gate (st : TraderState) (symbol : String) (sig : SignalIn)
    (price : ℚ) (atr : Option ℚ) :
    ((process_signal st symbol sig price atr).2 = some "BUY" →
      sig.direction = "BUY" ∧ 0.30 ≤ sig.strength ∧ 0.65 ≤ sig.confidence) ∧
    (sig.direction = "BUY" → sig.strength < 0.30 →
      process_signal st symbol sig price atr = (st, none)) := by
  constructor
  · intro h
    unfold process_signal at h
    by_cases hc : sig.direction = "BUY" ∧ BUY_THRESHOLD ≤ sig.strength ∧
        BUY_CONFIDENCE_MIN ≤ sig.confidence ∧
        symbol ∉ st.open_positions.map (fun p => p.symbol)
    · have hbt : BUY_THRESHOLD = (0.30 : ℚ) := by norm_num [BUY_THRESHOLD]
      have hbc : BUY_CONFIDENCE_MIN = (0.65 : ℚ) := by norm_num [BUY_CONFIDENCE_MIN]
      exact ⟨hc.1, hbt ▸ hc.2.1, hbc ▸ hc.2.2.1⟩
    · rw [if_neg hc] at h
      by_cases hs : sig.direction = "SELL" ∧
          symbol ∈ st.open_positions.map (fun p => p.symbol)
      · rw [if_pos hs] at h
        cases hfind : st.open_positions.find? (fun p => p.symbol == symbol) with
        | none => rw [hfind] at h; simp at h
        | some pos => rw [hfind] at h; simp at h
      · rw [if_neg hs] at h
        simp at h
  · intro hdir hlt
    unfold process_signal
    rw [if_neg, if_neg]
    · rintro ⟨hsell, -⟩
      rw [hdir] at hsell
      exact absurd hsell (by decide)
    · rintro ⟨-, hle, -⟩
      have hbt : BUY_THRESHOLD = (0.30 : ℚ) := by norm_num [BUY_THRESHOLD]
      exact absurd hle (by rw [hbt]; exact not_le.mpr hlt)

def c9st : TraderState := ⟨100000, 0.10, 0.001, [], []⟩

def c9sig : SignalIn := ⟨"BUY", 0.2, 0.9⟩

/-- C9 witness: a BUY signal of strength 0.2 changes nothing. -/
theorem paper_buy_static_gate_witness :
    process_signal c9st "AAPL" c9sig 100 none = (c9st, none) :=
  (paper_buy_static_gate c9st "AAPL" c9sig 100 none).2 rfl (by norm_num [c9sig])

/-! ### `src/analysis/accuracy_tracker.py` -/

/-- A row of the `signals` table as read by `get_unchecked_signals`. -/
structure SignalRow where
  id : ℕ
  symbol : String
  direction : String
deriving DecidableEq

/-- The outcome dict built by `evaluate_signal`. -/
structure Outcome where
  return_5d : Option ℚ
  return_10d : Option ℚ
  correct : Option ℕ
deriving DecidableEq

/-- The `correct` field computed by `evaluate_signal` from the 5-day
forward return (the `else` arm is the HOLD case): `None` when no 5-day
return exists. -/
def outcomeCorrect (direction : String) (return_5d : Option ℚ) : Option ℕ :=
  match return_5d with
  | none => none
  | some r =>
    if direction = "BUY" then some (if 0 < r then 1 else 0)
    else if direction = "SELL" then some (if r < 0 then 1 else 0)
    else some (if |r| < 0.02 then 1 else 0)

/-- The sequence of `update_signal_outcome` writes performed by
`run_accuracy_check`.  `evaluate_signal`'s price fetching is abstracted
as the oracle `evalFn`, which returns `none` whenever price data is
unavailable (fetch failure, empty frame, no trading day at or after the
signal date, zero base price); a signal whose evaluation is `none` is
skipped (`continue`), so no UPDATE — in particular no
`outcome_checked_at` — is issued for it. -/
def accuracyCheckWrites (signals : List SignalRow)
    (evalFn : SignalRow → Option Outcome) : List (ℕ × Outcome) :=
  signals.filterMap (fun s => (evalFn s).map (fun o => (s.id, o)))

lemma accuracyCheckWrites_fst_mem {signals : List SignalRow}
    {evalFn : SignalRow → Option Outcome} {i : ℕ}
    (h : i ∈ (accuracyCheckWrites signals evalFn).map Prod.fst) :
    ∃ t ∈ signals, t.id = i ∧ (evalFn t).isSome := by
  rw [accuracyCheckWrites] at h
  obtain ⟨p, hp, hfst⟩ := List.mem_map.mp h
  obtain ⟨t, ht, hmap⟩ := List.mem_filterMap.mp hp
  cases heval : evalFn t with
  | none => rw [heval] at hmap; simp at hmap
  | some o =>
    rw [heval] at hmap
    simp only [Option.map_some'] at hmap
    have hp2 : p = (t.id, o) := (Option.some.inj hmap).symm
    refine ⟨t, ht, ?_, by rw [heval]; rfl⟩
    rw [← hfst, hp2]

/-- C7: with a defined 5-day return `r`, a BUY signal is marked correct
iff `r > 0`, a SELL signal iff `r < 0`, a HOLD signal iff `|r| < 0.02`;
and a signal for which price data is unavailable (evaluation `none`)
never receives an outcome write — it stays pending. -/
theorem accuracy_rule_and_pending (r : ℚ) (signals : List SignalRow)
    (evalFn : SignalRow → Option Outcome) (s : SignalRow)
    (hnodup : (signals.map (fun t => t.id)).Nodup) (hmem : s ∈ signals)
    (hnone : evalFn s = none) :
    (outcomeCorrect "BUY" (some r) = some 1 ↔ 0 < r) ∧
    (outcomeCorrect "SELL" (some r) = some 1 ↔ r < 0) ∧
    (outcomeCorrect "HOLD" (some r) = some 1 ↔ |r| < 0.02) ∧
    s.id ∉ (accuracyCheckWrites signals evalFn).map Prod.fst := by
  refine ⟨?_, ?_, ?_, ?_⟩
  · rw [outcomeCorrect]
    split_ifs <;> simp_all
  · rw [outcomeCorrect]
    split_ifs <;> simp_all
  · rw [outcomeCorrect]
    split_ifs <;> simp_all
  · intro hin
    obtain ⟨t, htmem, htid, htsome⟩ := accuracyCheckWrites_fst_mem hin
    have hts : t = s := List.inj_on_of_nodup_map hnodup htmem hmem htid
    rw [hts, hnone] at htsome
    simp at htsome

def c7row : SignalRow := ⟨1, "AAPL", "BUY"⟩

def c7eval : SignalRow → Option Outcome := fun _ => none

/-- C7 witness: the theorem applied to a one-row table whose evaluation
finds no price data. -/
theorem accuracy_rule_and_pending_witness :
    (outcomeCorrect "BUY" (some 0.01) = some 1 ↔ (0 : ℚ) < 0.01) ∧
    (outcomeCorrect "SELL" (some 0.01) = some 1 ↔ (0.01 : ℚ) < 0) ∧
    (outcomeCorrect "HOLD" (some 0.01) = some 1 ↔ |(0.01 : ℚ)| < 0.02) ∧
    c7row.id ∉ (accuracyCheckWrites [c7row] c7eval).map Prod.fst :=
  accuracy_rule_and_pending 0.01 [c7row] c7eval c7row (by simp)
    (List.mem_singleton.mpr rfl) rfl

/-- `compute_adaptive_weights(min_samples=30)`.  The DB scan and the
numerical `np.corrcoef` call are abstracted: `n` is the number of
evaluated non-HOLD rows and `ct`, `cs`, `cm` are the three point-biserial
correlations before `_safe_corr`'s floor at zero (the floor `max 0 ·` is
applied here, as in the source; the degenerate zero-variance guard of
`_safe_corr` corresponds to a correlation parameter of 0).  Python's
float literal `1e-9` is modelled as the exact rational. -/
def compute_adaptive_weights (n : ℕ) (ct cs cm : ℚ) : Weights :=
  if n < 30 then SIGNAL_WEIGHTS
  else
    let tech_corr := max 0 ct
    let sent_corr := max 0 cs
    let ml_corr := max 0 cm
    let total_corr := tech_corr + sent_corr + ml_corr
    if total_corr < 1 / 1000000000 then SIGNAL_WEIGHTS
    else
      let blended_t := 0.5 * (tech_corr / total_corr) + 0.5 * SIGNAL_WEIGHTS.technical
      let blended_s := 0.5 * (sent_corr / total_corr) + 0.5 * SIGNAL_WEIGHTS.sentiment
      let blended_m := 0.5 * (ml_corr / total_corr) + 0.5 * SIGNAL_WEIGHTS.ml
      let blended_mac := SIGNAL_WEIGHTS.macroW
      let total := blended_t + blended_s + blended_m + blended_mac
      { technical := round4 (blended_t / total)
        sentiment := round4 (blended_s / total)
        ml := round4 (blended_m / total)
        macroW := round4 (blended_mac / total) }

/-- C8 (amended): the configured priors are returned unchanged when the
sample count is below 30 or the **sum** of the three floored correlations
is below 10⁻⁹; otherwise the blended weight vector holds macro at the
configured prior 0.15, blends the normalised correlations 50/50 with the
priors, divides by the blend total (which is always 1.075), and the four
normalised weights sum to exactly 1 **before** the final 4-decimal
rounding; each returned weight is the 4-decimal rounding of its
normalised value. -/
theorem adaptive_weights_spec (n : ℕ) (ct cs cm : ℚ) :
    ((n < 30 ∨ max 0 ct + max 0 cs + max 0 cm < 1 / 1000000000) →
      compute_adaptive_weights n ct cs cm = SIGNAL_WEIGHTS) ∧
    (30 ≤ n → 1 / 1000000000 ≤ max 0 ct + max 0 cs + max 0 cm →
      (0.5 * (max 0 ct / (max 0 ct + max 0 cs + max 0 cm)) + 0.5 * 0.30) +
          (0.5 * (max 0 cs / (max 0 ct + max 0 cs + max 0 cm)) + 0.5 * 0.20) +
          (0.5 * (max 0 cm / (max 0 ct + max 0 cs + max 0 cm)) + 0.5 * 0.35) + 0.15 =
        1.075 ∧
      compute_adaptive_weights n ct cs cm =
        { technical := round4 ((0.5 * (max 0 ct / (max 0 ct + max 0 cs + max 0 cm)) +
              0.5 * 0.30) / 1.075)
          sentiment := round4 ((0.5 * (max 0 cs / (max 0 ct + max 0 cs + max 0 cm)) +
              0.5 * 0.20) / 1.075)
          ml := round4 ((0.5 * (max 0 cm / (max 0 ct + max 0 cs + max 0 cm)) +
              0.5 * 0.35) / 1.075)
          macroW := round4 (0.15 / 1.075) } ∧
      (0.5 * (max 0 ct / (max 0 ct + max 0 cs + max 0 cm)) + 0.5 * 0.30) / 1.075 +
          (0.5 * (max 0 cs / (max 0 ct + max 0 cs + max 0 cm)) + 0.5 * 0.20) / 1.075 +
          (0.5 * (max 0 cm / (max 0 ct + max 0 cs + max 0 cm)) + 0.5 * 0.35) / 1.075 +
          0.15 / 1.075 = 1) := by
  constructor
  · rintro (hn | htot)
    · rw [compute_adaptive_weights, if_pos hn]
    · simp only [compute_adaptive_weights]
      split_ifs with h1 h2
      · rfl
      · rfl
  · intro hn htot
    have hS : (0 : ℚ) < max 0 ct + max 0 cs + max 0 cm :=
      lt_of_lt_of_le (by norm_num) htot
    have hsum : max 0 ct / (max 0 ct + max 0 cs + max 0 cm) +
        max 0 cs / (max 0 ct + max 0 cs + max 0 cm) +
        max 0 cm / (max 0 ct + max 0 cs + max 0 cm) = 1 := by
      field_simp
    have htotal : (0.5 * (max 0 ct / (max 0 ct + max 0 cs + max 0 cm)) + 0.5 * 0.30) +
        (0.5 * (max 0 cs / (max 0 ct + max 0 cs + max 0 cm)) + 0.5 * 0.20) +
        (0.5 * (max 0 cm / (max 0 ct + max 0 cs + max 0 cm)) + 0.5 * 0.35) + 0.15 =
        1.075 := by
      nlinarith [hsum]
    refine ⟨htotal, ?_, ?_⟩
    · have hmac : SIGNAL_WEIGHTS.macroW = 0.15 := by norm_num [SIGNAL_WEIGHTS]
      have htec : SIGNAL_WEIGHTS.technical = 0.30 := by norm_num [SIGNAL_WEIGHTS]
      have hsen : SIGNAL_WEIGHTS.sentiment = 0.20 := by norm_num [SIGNAL_WEIGHTS]
      have hml : SIGNAL_WEIGHTS.ml = 0.35 := by norm_num [SIGNAL_WEIGHTS]
      simp only [compute_adaptive_weights]
      split_ifs with h1 h2
      · exact absurd h1 (not_lt.mpr hn)
      · exact absurd h2 (not_lt.mpr htot)
      · rw [htec, hsen, hml, hmac, htotal]
    · rw [div_add_div_same, div_add_div_same, div_add_div_same, ← htotal]
      rw [div_self (by rw [htotal]; norm_num)]

def c8corrTiny : ℚ := 9 / 10000000000

/-- C8 (counterexample): two concrete refutations of the claim as
stated.  First, with all three correlations equal to `9·10⁻¹⁰` — each
individually below `10⁻⁹` — the priors are **not** returned (the code
tests the sum, which is `2.7·10⁻⁹`), and the returned technical weight
is 0.2946 ≠ 0.30.  Second, at correlations (0.345129, 0.23011825,
0.42475275) the four returned weights sum to 1.0001, not 1 (the
4-decimal roundings accumulate). -/
theorem adaptive_weights_counterexample :
    (c8corrTiny < 1 / 1000000000) ∧
    (compute_adaptive_weights 30 c8corrTiny c8corrTiny c8corrTiny).technical = 0.2946 ∧
    SIGNAL_WEIGHTS.technical = 0.30 ∧
    compute_adaptive_weights 30 c8corrTiny c8corrTiny c8corrTiny ≠ SIGNAL_WEIGHTS ∧
    ((compute_adaptive_weights 30 0.345129 0.23011825 0.42475275).technical +
      (compute_adaptive_weights 30 0.345129 0.23011825 0.42475275).sentiment +
      (compute_adaptive_weights 30 0.345129 0.23011825 0.42475275).ml +
      (compute_adaptive_weights 30 0.345129 0.23011825 0.42475275).macroW = 1.0001) ∧
    (1.0001 : ℚ) ≠ 1 := by
  have h1 : (compute_adaptive_weights 30 c8corrTiny c8corrTiny c8corrTiny).technical =
      0.2946 := by
    norm_num [compute_adaptive_weights, c8corrTiny, SIGNAL_WEIGHTS, max_def, round4,
      roundHalfEven]
  refine ⟨by norm_num [c8corrTiny], h1, by norm_num [SIGNAL_WEIGHTS], ?_, ?_, by norm_num⟩
  · intro hcontra
    rw [hcontra] at h1
    norm_num [SIGNAL_WEIGHTS] at h1
  · norm_num [compute_adaptive_weights, SIGNAL_WEIGHTS, max_def, round4, roundHalfEven]

def c8ok : Weights := compute_adaptive_weights 30 1 0 0

/-- C8 witness: the amended theorem applied on both sides of the case
split — priors returned at 10 samples, and the blended path at
correlations (1, 0, 0) with 30 samples. -/
theorem adaptive_weights_spec_witness :
    compute_adaptive_weights 10 1 0 0 = SIGNAL_WEIGHTS ∧
    compute_adaptive_weights 30 1 0 0 =
      { technical := round4 ((0.5 * (max 0 (1 : ℚ) / (max 0 (1 : ℚ) + max 0 (0 : ℚ) +
            max 0 (0 : ℚ))) + 0.5 * 0.30) / 1.075)
        sentiment := round4 ((0.5 * (max 0 (0 : ℚ) / (max 0 (1 : ℚ) + max 0 (0 : ℚ) +
            max 0 (0 : ℚ))) + 0.5 * 0.20) / 1.075)
        ml := round4 ((0.5 * (max 0 (0 : ℚ) / (max 0 (1 : ℚ) + max 0 (0 : ℚ) +
            max 0 (0 : ℚ))) + 0.5 * 0.35) / 1.075)
        macroW := round4 ((0.15 : ℚ) / 1.075) } :=
  ⟨(adaptive_weights_spec 10 1 0 0).1 (Or.inl (by norm_num)),
    ((adaptive_weights_spec 30 1 0 0).2 (le_refl 30) (by norm_num)).2.1⟩

/-! ### `src/strategy/risk_manager.py` — `check_position_limits` -/

inductive PyError
  | ZeroDivisionError
deriving DecidableEq

/-- Python division: raises `ZeroDivisionError` on a zero denominator. -/
def divE (a b : ℚ) : Except PyError ℚ :=
  if b = 0 then Except.error PyError.ZeroDivisionError else Except.ok (a / b)

structure Holding where
  quantity : ℚ
  avg_cost : ℚ
  asset_type : String
deriving DecidableEq

structure LimitsResult where
  allowed : Bool
  violations : List String
  warnings : List String
deriving DecidableEq

/-- `check_position_limits(symbol, proposed_value, portfolio_value,
asset_type, current_crypto_value)`.  The `symbol` argument is unused by
the source body and omitted; the DB `get_holdings()` fallback is the
`holdings` parameter; the f-string texts are abbreviated to fixed tags.
The single-position percentage is guarded (`if portfolio_value > 0
else 1`); the crypto-allocation and trade-risk divisions are not. -/
def check_position_limits (proposed_value portfolio_value : ℚ) (asset_type : String)
    (current_crypto_value : Option ℚ) (holdings : List Holding) :
    Except PyError LimitsResult :=
  let position_pct :=
    if 0 < portfolio_value then proposed_value / portfolio_value else 1
  let violations1 : List String :=
    if RISK_max_single_position < position_pct then ["single position exceeds max"]
    else []
  let cryptoStep : Except PyError (List String) :=
    if asset_type = "crypto" then
      let crypto_value :=
        match current_crypto_value with
        | some v => v
        | none =>
          ((holdings.filter (fun h => h.asset_type == "crypto")).map
            (fun h => h.quantity * h.avg_cost)).sum
      match divE (crypto_value + proposed_value) portfolio_value with
      | Except.error e => Except.error e
      | Except.ok new_crypto_pct =>
        Except.ok (if RISK_max_crypto_allocation < new_crypto_pct then
          violations1 ++ ["crypto allocation exceeds max"] else violations1)
    else Except.ok violations1
  match cryptoStep with
  | Except.error e => Except.error e
  | Except.ok violations =>
    match divE (proposed_value * STOP_LOSS_percentage) portfolio_value with
    | Except.error e => Except.error e
    | Except.ok trade_risk_pct =>
      Except.ok
        { allowed := violations.isEmpty
          violations := violations
          warnings := if RISK_max_trade_risk < trade_risk_pct then
            ["trade risk exceeds max"] else [] }

/-- C10 (counterexample): the claim asserts the stock call with
portfolio value 0 returns normally; in fact it raises
`ZeroDivisionError` too — at the unguarded trade-risk division. -/
theorem position_limits_stock_counterexample :
    check_position_limits 100 0 "stock" none [] =
      Except.error PyError.ZeroDivisionError ∧
    ¬ ∃ r : LimitsResult, check_position_limits 100 0 "stock" none [] = Except.ok r := by
  constructor
  · simp [check_position_limits, divE]
  · rintro ⟨r, hr⟩
    simp [check_position_limits, divE] at hr

/-- C10 (amended): `check_position_limits` guards only the
single-position percentage against a non-positive portfolio value
(treating the exposure as 100%); with portfolio value 0 **every** call
raises `ZeroDivisionError` — a crypto call at the crypto-allocation
division, any other call at the trade-risk division. -/
theorem position_limits_zero_portfolio (proposed : ℚ) (asset_type : String)
    (ccv : Option ℚ) (holdings : List Holding) :
    check_position_limits proposed 0 asset_type ccv holdings =
      Except.error PyError.ZeroDivisionError := by
  by_cases h : asset_type = "crypto" <;>
    simp [check_position_limits, divE, h]

/-! ### `src/strategy/walk_forward.py`

Price histories are reduced to their date indices (coded as naturals):
the walk-forward slicing and union-window construction inspect only
`df.index`.  `BacktestEngine.run` is the `engine` parameter: it consumes
the sliced window handed to it by the validator and produces the metric
dict (its `try/except` wrapper is dropped — the abstract engine is
total).  Python's `sorted({...})` is modelled as insertion sort of the
deduplicated list.  The `while oos_end <= total_bars` loop advances
`oos_end` by `out_of_sample_bars` each iteration (it does not terminate
when that is 0); for a positive step the iterations executed are exactly
`k = 0, …, (total_bars − in_sample_bars)/oos_bars − 1`. -/

/-- The metric fields copied out of the `BacktestEngine.run` result. -/
structure MetricsR where
  total_return : ℚ
  annual_return : ℚ
  sharpe_ratio : ℚ
  sortino_ratio : ℚ
  calmar_ratio : ℚ
  max_drawdown : ℚ
  win_rate : ℚ
  total_trades : ℕ
deriving DecidableEq

/-- One entry of the `folds` list built by `WalkForwardValidator.run`. -/
structure FoldMetrics where
  fold : ℕ
  oos_start : ℕ
  oos_end : ℕ
  total_return : ℚ
  annual_return : ℚ
  sharpe_ratio : ℚ
  sortino_ratio : ℚ
  calmar_ratio : ℚ
  max_drawdown : ℚ
  win_rate : ℚ
  total_trades : ℕ
deriving DecidableEq

/-- `all_dates = sorted({d for df in price_data.values() for d in df.index})`. -/
def wfAllDates (price_data : List (String × List ℕ)) : List ℕ :=
  List.insertionSort (· ≤ ·) ((price_data.map Prod.snd).join.dedup)

/-- Fold `k`'s `window_data`: every symbol's rows restricted to the
first `in_sample + (k+1)·oos` union dates, keeping only symbols with at
least `in_sample + 10` surviving rows. -/
def wfWindow (in_sample oos : ℕ) (price_data : List (String × List ℕ)) (k : ℕ) :
    List (String × List ℕ) :=
  let all_dates := wfAllDates price_data
  let window_dates := all_dates.take (in_sample + (k + 1) * oos)
  price_data.filterMap (fun sd =>
    if in_sample + 10 ≤ (sd.2.filter (fun d => d ∈ window_dates)).length then
      some (sd.1, sd.2.filter (fun d => d ∈ window_dates))
    else none)

/-- The number of loop iterations, for a positive OOS step. -/
def wfNumFolds (in_sample oos total : ℕ) : ℕ :=
  if oos = 0 then 0 else (total - in_sample) / oos

/-- The per-fold record: the eight metric fields are copied verbatim
from the engine's result on the whole window. -/
def wfFoldRecord (all_dates : List ℕ) (in_sample oos k : ℕ)
    (results : MetricsR) : FoldMetrics :=
  { fold := k
    oos_start := all_dates.getD (in_sample + (k + 1) * oos - oos) 0
    oos_end := all_dates.getD (in_sample + (k + 1) * oos - 1) 0
    total_return := results.total_return
    annual_return := results.annual_return
    sharpe_ratio := results.sharpe_ratio
    sortino_ratio := results.sortino_ratio
    calmar_ratio := results.calmar_ratio
    max_drawdown := results.max_drawdown
    win_rate := results.win_rate
    total_trades := results.total_trades }

/-- `WalkForwardValidator.run` (the `folds` list it builds). -/
def walk_forward_run (in_sample oos : ℕ)
    (engine : List (String × List ℕ) → MetricsR)
    (price_data : List (String × List ℕ)) : List FoldMetrics :=
  (List.range (wfNumFolds in_sample oos (wfAllDates price_data).length)).filterMap
    (fun k =>
      if (wfWindow in_sample oos price_data k).isEmpty then none
      else some (wfFoldRecord (wfAllDates price_data) in_sample oos k
        (engine (wfWindow in_sample oos price_data k))))

/-- C6: every fold record reported by the walk-forward validator copies
its eight metric fields from the engine's result on the **union**
window (all dates up to the fold's OOS end, in-sample rows included) —
the metrics are those of the full-window backtest, not of an OOS-only
slice. -/
theorem walk_forward_metrics_from_union (in_sample oos : ℕ)
    (engine : List (String × List ℕ) → MetricsR)
    (price_data : List (String × List ℕ)) (f : FoldMetrics)
    (hf : f ∈ walk_forward_run in_sample oos engine price_data) :
    (f.total_return = (engine (wfWindow in_sample oos price_data f.fold)).total_return ∧
      f.annual_return = (engine (wfWindow in_sample oos price_data f.fold)).annual_return ∧
      f.sharpe_ratio = (engine (wfWindow in_sample oos price_data f.fold)).sharpe_ratio ∧
      f.sortino_ratio = (engine (wfWindow in_sample oos price_data f.fold)).sortino_ratio ∧
      f.calmar_ratio = (engine (wfWindow in_sample oos price_data f.fold)).calmar_ratio ∧
      f.max_drawdown = (engine (wfWindow in_sample oos price_data f.fold)).max_drawdown ∧
      f.win_rate = (engine (wfWindow in_sample oos price_data f.fold)).win_rate ∧
      f.total_trades = (engine (wfWindow in_sample oos price_data f.fold)).total_trades) ∧
    (wfWindow in_sample oos price_data f.fold).isEmpty = false := by
  rw [walk_forward_run] at hf
  obtain ⟨k, hk, hsome⟩ := List.mem_filterMap.mp hf
  by_cases hemp : (wfWindow in_sample oos price_data k).isEmpty
  · rw [if_pos hemp] at hsome
    cases hsome
  · rw [if_neg hemp] at hsome
    have hfk := (Option.some.inj hsome).symm
    subst hfk
    exact ⟨⟨rfl, rfl, rfl, rfl, rfl, rfl, rfl, rfl⟩, by simpa using hemp⟩

def c6engine : List (String × List ℕ) → MetricsR :=
  fun _ => ⟨0.42, 0.1, 1.5, 2, 3, 0.2, 0.5, 7⟩

def c6data : List (String × List ℕ) := [("A", [0, 1, 2, 3, 4, 5, 6, 7, 8, 9])]

def c6fold : FoldMetrics := ⟨0, 0, 9, 0.42, 0.1, 1.5, 2, 3, 0.2, 0.5, 7⟩

/-- C6 witness: the provenance theorem applied to a concrete
ten-bar, one-fold run. -/
theorem walk_forward_metrics_from_union_witness :
    c6fold ∈ walk_forward_run 0 10 c6engine c6data ∧
    c6fold.total_return = (c6engine (wfWindow 0 10 c6data c6fold.fold)).total_return := by
  have hrun : walk_forward_run 0 10 c6engine c6data = [c6fold] := by
    rw [walk_forward_run,
      show wfNumFolds 0 10 (wfAllDates c6data).length = 1 from by decide,
      show List.range 1 = [0] from rfl]
    simp only [List.filterMap_cons, List.filterMap_nil]
    rw [if_neg (by decide : ¬ (wfWindow 0 10 c6data 0).isEmpty = true)]
    rfl
  have hmem : c6fold ∈ walk_forward_run 0 10 c6engine c6data := by
    rw [hrun]
    exact List.mem_singleton.mpr rfl
  exact ⟨hmem,
    ((walk_forward_metrics_from_union 0 10 c6engine c6data c6fold hmem).1).1⟩

end AIInvest
